import Mathlib

set_option maxHeartbeats 1000000

/-! Shallow embedding of the voicemail webhook service (a single-file Go
program).  Pure computation (phone-number extraction, base64, string
cleanup, byte substitution) is translated directly from the source;
external effects (filesystem writes, the transcription subprocess, the
title HTTP call, the database) appear as explicit environment values
consumed by the handlers, so every handler is a total function of its
request and its effect environment. -/

/-- Characters matched by the Perl class \s in Go regexp (RE2):
tab, newline, form feed, carriage return, space. -/
def isRegexSpace (c : Char) : Bool :=
  c == '\t' || c == '\n' || c == Char.ofNat 12 || c == '\r' || c == ' '

/-- The character class [-.\s] used between digit groups in the phone regex. -/
def isSepChar (c : Char) : Bool :=
  c == '-' || c == '.' || isRegexSpace c

/-- Characters trimmed by Go strings.TrimSpace (unicode.IsSpace): ASCII
whitespace plus NEL, NBSP and the Unicode White_Space code points. -/
def isGoSpace (c : Char) : Bool :=
  c == ' ' || c == '\t' || c == '\n' || c == Char.ofNat 11 || c == Char.ofNat 12 ||
  c == '\r' || c == Char.ofNat 133 || c == Char.ofNat 160 || c == Char.ofNat 5760 ||
  (decide (8192 ≤ c.toNat) && decide (c.toNat ≤ 8202)) ||
  c == Char.ofNat 8232 || c == Char.ofNat 8233 || c == Char.ofNat 8239 ||
  c == Char.ofNat 8287 || c == Char.ofNat 12288

/-- The cutset of strings.Trim(title, quote-marks): double quote and apostrophe. -/
def isQuoteChar (c : Char) : Bool :=
  c == '"' || c == Char.ofNat 39

/-- Drop leading characters satisfying p (left half of Go strings.Trim). -/
def trimLeftP (p : Char → Bool) (l : List Char) : List Char :=
  l.dropWhile p

/-- Drop trailing characters satisfying p (right half of Go strings.Trim). -/
def trimRightP (p : Char → Bool) (l : List Char) : List Char :=
  (l.reverse.dropWhile p).reverse

/-- Go strings.Trim over a decidable cutset: strip both ends. -/
def goTrim (p : Char → Bool) (l : List Char) : List Char :=
  trimRightP p (trimLeftP p l)

/-- Go strings.TrimSpace. -/
def goTrimSpace (s : String) : String :=
  String.mk (goTrim isGoSpace s.data)

/-- Go strings.Trim(s, quote-marks), as applied to the generated title. -/
def goTrimQuotes (s : String) : String :=
  String.mk (goTrim isQuoteChar s.data)

/-- List-level test that the first argument is an initial segment of the second. -/
def strHasPre : List Char → List Char → Bool
  | [], _ => true
  | _ :: _, [] => false
  | p :: ps, c :: cs => p == c && strHasPre ps cs

/-- Go strings.TrimPrefix: drop the prefix when present, else return s unchanged. -/
def goTrimPre (pre s : String) : String :=
  if strHasPre pre.data s.data then String.mk (s.data.drop pre.data.length) else s

/-- ASCII lowering of a string, as strings.ToLower acts on the ASCII
filenames relevant here. -/
def asciiLower (s : String) : String :=
  String.mk (s.data.map Char.toLower)

/-- The attachment filter of the webhook: the lowercased filename ends in ".mp3". -/
def isMp3Name (s : String) : Bool :=
  List.isSuffixOf (['.', 'm', 'p', '3']) (asciiLower s).data

/-- The standard base64 alphabet of encoding/base64. -/
def b64StdAlphabet : List Char :=
  ['A', 'B', 'C', 'D', 'E', 'F', 'G', 'H', 'I', 'J', 'K', 'L', 'M',
   'N', 'O', 'P', 'Q', 'R', 'S', 'T', 'U', 'V', 'W', 'X', 'Y', 'Z',
   'a', 'b', 'c', 'd', 'e', 'f', 'g', 'h', 'i', 'j', 'k', 'l', 'm',
   'n', 'o', 'p', 'q', 'r', 's', 't', 'u', 'v', 'w', 'x', 'y', 'z',
   '0', '1', '2', '3', '4', '5', '6', '7', '8', '9', '+', '/']

/-- The URL-safe base64 alphabet (base64.URLEncoding), used by generateID. -/
def b64UrlAlphabet : List Char :=
  b64StdAlphabet.take 62 ++ ['-', '_']

/-- Encode one 6-bit value through an alphabet. -/
def encB64 (ab : List Char) (n : Nat) : Char :=
  ab.getD n '?'

/-- Index of a character in an alphabet, none when absent. -/
def lookupIdx : List Char → Char → Option Nat
  | [], _ => none
  | a :: rest, c => if a == c then some 0 else (lookupIdx rest c).map (· + 1)

/-- Decode one base64 character through an alphabet. -/
def decB64 (ab : List Char) (c : Char) : Option Nat :=
  lookupIdx ab c

/-- base64 encoding with padding, as EncodeToString: bytes are grouped in
threes, a final group of one or two bytes is padded with = signs. -/
def encodeB64 (ab : List Char) : List Nat → List Char
  | [] => []
  | [b0] => [encB64 ab (b0 / 4), encB64 ab (b0 % 4 * 16), '=', '=']
  | [b0, b1] =>
    [encB64 ab (b0 / 4), encB64 ab (b0 % 4 * 16 + b1 / 16), encB64 ab (b1 % 16 * 4), '=']
  | b0 :: b1 :: b2 :: rest =>
    encB64 ab (b0 / 4) :: encB64 ab (b0 % 4 * 16 + b1 / 16) ::
    encB64 ab (b1 % 16 * 4 + b2 / 64) :: encB64 ab (b2 % 64) :: encodeB64 ab rest

/-- base64 decoding of newline-free input, as DecodeString after its
newline skipping: four characters at a time, padding only in a final
quantum, any character outside the alphabet is an error; trailing bits of
a padded quantum are discarded (non-strict mode). -/
def decodeChunks (ab : List Char) : List Char → Option (List Nat)
  | [] => some []
  | c0 :: c1 :: c2 :: c3 :: rest =>
    match decB64 ab c0, decB64 ab c1 with
    | some n0, some n1 =>
      if c2 == '=' then
        if c3 == '=' && rest.isEmpty then some [n0 * 4 + n1 / 16] else none
      else
        match decB64 ab c2 with
        | some n2 =>
          if c3 == '=' then
            if rest.isEmpty then some [n0 * 4 + n1 / 16, n1 % 16 * 16 + n2 / 4] else none
          else
            match decB64 ab c3 with
            | some n3 =>
              match decodeChunks ab rest with
              | some bs => some ((n0 * 4 + n1 / 16) :: (n1 % 16 * 16 + n2 / 4) :: (n2 % 4 * 64 + n3) :: bs)
              | none => none
            | none => none
        | none => none
    | _, _ => none
  | _ => none

/-- base64.StdEncoding.DecodeString: carriage returns and newlines are
ignored, then the input is decoded in quanta of four characters. -/
def decodeB64 (s : List Char) : Option (List Nat) :=
  decodeChunks b64StdAlphabet (s.filter (fun c => !(c == '\n' || c == '\r')))

/-- AttachmentData: an email attachment (content is base64 text). -/
structure AttachmentData where
  fileName : String
  content : String
  mimeType : String
deriving DecidableEq

/-- EmailData: the transient webhook payload. -/
structure EmailData where
  subject : String
  sender : String
  receivedAt : String
  attachments : List AttachmentData
deriving DecidableEq

/-- Recording: the persisted unit, one row of the recordings table. -/
structure Recording where
  id : String
  phoneNumber : String
  receivedAt : String
  mp3FileName : String
  filePath : String
  fileSize : Nat
  transcription : String
  title : String
deriving DecidableEq

/-- Message: one chat message of the OpenAI-style schema. -/
structure Message where
  role : String
  content : String
deriving DecidableEq

/-- Outcome of the HTTP exchange inside generateTitle: a transport
failure, a body-read failure, or a response carrying a status code and
the parse of its body into the choices' message list (none models an
unmarshal failure). -/
inductive TitleOutcome where
  | sendError
  | readError
  | httpResponse (status : Nat) (choices : Option (List Message))
deriving DecidableEq

/-- Errors of saveAttachment, in source order: base64 decode error, file
creation error, file write error. -/
inductive SaveError where
  | decodeError
  | createError
  | writeError
deriving DecidableEq

/-- Filesystem oracle for one saveAttachment call. -/
structure WriteEnv where
  createOk : Bool
  writeOk : Bool
deriving DecidableEq

/-- Entropy source of generateID: either sixteen random bytes, or (when
rand.Read fails) the current UnixNano clock value. -/
inductive GenSource where
  | random (bytes : List Nat)
  | clock (nanos : Nat)
deriving DecidableEq

/-- Effect environment of one matched-attachment iteration of the
webhook loop. -/
structure AttemptEnv where
  genSource : GenSource
  writeEnv : WriteEnv
  statOk : Bool
  transcribeResult : Except String String
  titleOutcome : TitleOutcome
  insertOk : Bool

/-- Accumulated result of the attachment loop: the final value of the
recordingID variable, the records handed to INSERT, the records the
database accepted, and whether generateTitle was invoked. -/
structure LoopResult where
  rid : String
  submitted : List Recording
  inserted : List Recording
  titleInvoked : Bool
deriving DecidableEq

/-- The success JSON body of the webhook. -/
structure RespBody where
  status : String
  message : String
  id : String
deriving DecidableEq

/-- Observable outcome of one webhook request. -/
structure WebhookOutput where
  status : Nat
  body : Option RespBody
  submitted : List Recording
  inserted : List Recording
  titleInvoked : Bool
deriving DecidableEq

/-- Scan error of the play lookup: sql.ErrNoRows for an absent id, or
any other database error; the handler treats both alike. -/
inductive ScanError where
  | noRows
  | dbError
deriving DecidableEq

/-- Outcome of the os.Stat probe before serving: success, a not-exist
error, or any other stat error; the handler's guard only catches the
not-exist case. -/
inductive StatOutcome where
  | okStat
  | notExist
  | otherError
deriving DecidableEq

/-- Outcome of http.ServeFile: served content, or one of the statuses
its toHTTPError mapping produces for an open or stat failure: 404 for
not-exist, 403 for permission, 500 for every other error. -/
inductive ServeOutcome where
  | served
  | notFoundErr
  | forbiddenErr
  | internalErr
deriving DecidableEq

/-- The HTTP status http.ServeFile leaves on the response. -/
def serveStatus : ServeOutcome → Nat
  | ServeOutcome.served => 200
  | ServeOutcome.notFoundErr => 404
  | ServeOutcome.forbiddenErr => 403
  | ServeOutcome.internalErr => 500

/-- Environment of the play handler: the metadata lookup, the os.Stat
probe of the stored path and the http.ServeFile outcome. -/
structure PlayEnv where
  lookup : String → Except ScanError String
  statRes : String → StatOutcome
  serveRes : String → ServeOutcome

/-- saveAttachment: decode the base64 content, create the file, write
the bytes.  On success the written file holds exactly the decoded
bytes, returned here as the file content. -/
def saveAttachment (att : AttachmentData) (w : WriteEnv) : Except SaveError (List Nat) :=
  match decodeB64 att.content.data with
  | none => Except.error SaveError.decodeError
  | some bytes =>
    if w.createOk then
      if w.writeOk then Except.ok bytes else Except.error SaveError.writeError
    else Except.error SaveError.createError

/-- generateID: base64.URLEncoding of sixteen random bytes, falling back
to the decimal UnixNano clock when the random read fails. -/
def generateID : GenSource → String
  | GenSource.random bs => String.mk (encodeB64 b64UrlAlphabet bs)
  | GenSource.clock n => String.mk (Nat.toDigits 10 n)

/-- The cleanup chain of generateTitle, in source order: TrimSpace, then
Trim of quote characters, then TrimPrefix of a single colon, then the
default for an empty result. -/
def cleanTitle (content : String) : String :=
  let t1 := goTrimSpace content
  let t2 := goTrimQuotes t1
  let t3 := goTrimPre (":") t2
  if t3 = "" then "Untitled Voicemail" else t3

/-- generateTitle: every transport, status, unmarshal or empty-choices
failure returns the default sentinel title together with an error flag;
a well-formed response yields the cleaned content of the first choice. -/
def generateTitle (o : TitleOutcome) : String × Bool :=
  match o with
  | TitleOutcome.sendError => ("Untitled Voicemail", true)
  | TitleOutcome.readError => ("Untitled Voicemail", true)
  | TitleOutcome.httpResponse st choices =>
    if st ≠ 200 then ("Untitled Voicemail", true)
    else
      match choices with
      | none => ("Untitled Voicemail", true)
      | some [] => ("Untitled Voicemail", true)
      | some (c :: _) => (cleanTitle c.content, false)

/-- Take exactly n digit characters, returning them and the rest. -/
def takeDigits : Nat → List Char → Option (List Char × List Char)
  | 0, cs => some ([], cs)
  | _ + 1, [] => none
  | n + 1, c :: cs =>
    if c.isDigit then
      match takeDigits n cs with
      | some (g, r) => some (c :: g, r)
      | none => none
    else none

/-- Preference-ordered choice between two match attempts. -/
def firstSome {α : Type} (a b : Option α) : Option α :=
  match a with
  | some x => some x
  | none => b

/-- Phone regex, final group: (\d{4}); the rest of the input is unconstrained. -/
def reTail4 (cs : List Char) : Option (List Char) :=
  match takeDigits 4 cs with
  | some (g, _) => some g
  | none => none

/-- Phone regex from [-.\s]? (\d{4}): the greedy optional separator. -/
def reSepTail4 : List Char → Option (List Char)
  | [] => reTail4 []
  | c :: rest =>
    if isSepChar c then firstSome (reTail4 rest) (reTail4 (c :: rest))
    else reTail4 (c :: rest)

/-- Phone regex from (\d{3}) [-.\s]? (\d{4}): groups two and three. -/
def reMid34 (cs : List Char) : Option (List Char × List Char) :=
  match takeDigits 3 cs with
  | some (g2, r) =>
    match reSepTail4 r with
    | some g3 => some (g2, g3)
    | none => none
  | none => none

/-- Phone regex from [-.\s]? (\d{3}) [-.\s]? (\d{4}). -/
def reSepMid : List Char → Option (List Char × List Char)
  | [] => reMid34 []
  | c :: rest =>
    if isSepChar c then firstSome (reMid34 rest) (reMid34 (c :: rest))
    else reMid34 (c :: rest)

/-- Phone regex from \)? [-.\s]? (\d{3}) [-.\s]? (\d{4}). -/
def reCloseParen : List Char → Option (List Char × List Char)
  | [] => reSepMid []
  | c :: rest =>
    if c == ')' then firstSome (reSepMid rest) (reSepMid (c :: rest))
    else reSepMid (c :: rest)

/-- Phone regex from (\d{3}) \)? ...: all three capture groups. -/
def reCore (cs : List Char) : Option (List Char × List Char × List Char) :=
  match takeDigits 3 cs with
  | some (g1, r) =>
    match reCloseParen r with
    | some (g2, g3) => some (g1, g2, g3)
    | none => none
  | none => none

/-- Phone regex from \(? (\d{3}) .... -/
def reOpenParen : List Char → Option (List Char × List Char × List Char)
  | [] => reCore []
  | c :: rest =>
    if c == '(' then firstSome (reCore rest) (reCore (c :: rest))
    else reCore (c :: rest)

/-- Phone regex from \s* \(? ...: greedy star with backtracking. -/
def reSpaces : List Char → Option (List Char × List Char × List Char)
  | [] => reOpenParen []
  | c :: rest =>
    if isRegexSpace c then firstSome (reSpaces rest) (reOpenParen (c :: rest))
    else reOpenParen (c :: rest)

/-- Phone regex from 1? \s* .... -/
def reOne : List Char → Option (List Char × List Char × List Char)
  | [] => reSpaces []
  | c :: rest =>
    if c == '1' then firstSome (reSpaces rest) (reSpaces (c :: rest))
    else reSpaces (c :: rest)

/-- The whole phone pattern \+?1?\s*\(?(\d{3})\)?[-.\s]?(\d{3})[-.\s]?(\d{4})
anchored at the current position. -/
def rePlus : List Char → Option (List Char × List Char × List Char)
  | [] => reOne []
  | c :: rest =>
    if c == '+' then firstSome (reOne rest) (reOne (c :: rest))
    else reOne (c :: rest)

/-- FindStringSubmatch for the phone pattern: leftmost start position
wins, and at that position the backtracking preference order of rePlus
decides the groups. -/
def findPhone : List Char → Option (List Char × List Char × List Char)
  | [] => rePlus []
  | c :: rest => firstSome (rePlus (c :: rest)) (findPhone rest)

/-- extractPhoneNumber: on a match, the joke override when group one is
704 and the last two characters of group three are 90, otherwise the
(AAA) BBB-CCCC format; on no match, the empty string. -/
def extractPhoneNumber (s : String) : String :=
  match findPhone s.data with
  | some (g1, g2, g3) =>
    if g1 = ['7', '0', '4'] ∧ g3.drop 2 = ['9', '0'] then "I HATE THIS MAN"
    else "(" ++ String.mk g1 ++ ") " ++ String.mk g2 ++ "-" ++ String.mk g3
  | none => ""

/-- The attachment directory constant of the source. -/
def attachmentDir : String := "./data/mp3s"

/-- filepath.Join(attachmentDir, id + ".mp3"); Join cleans the leading
dot segment. -/
def mp3Path (id : String) : String :=
  "data/mp3s/" ++ id ++ ".mp3"

/-- The body of the loop once an attachment passed the save and stat
steps (source lines building the record, transcribing, optionally
titling): returns the record handed to INSERT and whether generateTitle
was invoked. -/
def processMatched (e : AttemptEnv) (pn ra fn fp rid : String) (size : Nat) :
    Recording × Bool :=
  match e.transcribeResult with
  | Except.error msg =>
    (⟨rid, pn, ra, fn, fp, size, "Transcription failed: " ++ msg, "Untitled Voicemail"⟩, false)
  | Except.ok t =>
    if t ≠ "" then
      if (generateTitle e.titleOutcome).2 then
        (⟨rid, pn, ra, fn, fp, size, t, "Untitled Voicemail"⟩, true)
      else (⟨rid, pn, ra, fn, fp, size, t, (generateTitle e.titleOutcome).1⟩, true)
    else (⟨rid, pn, ra, fn, fp, size, t, "Untitled Voicemail"⟩, false)

/-- The loop result of a fully processed attachment: the record is
submitted to INSERT, lands in the table only when the insert succeeds,
and the loop breaks. -/
def matchedResult (e : AttemptEnv) (pn ra : String) (a : AttachmentData)
    (rid : String) (size : Nat) : LoopResult :=
  ⟨rid, [(processMatched e pn ra a.fileName (mp3Path rid) rid size).1],
   if e.insertOk then [(processMatched e pn ra a.fileName (mp3Path rid) rid size).1] else [],
   (processMatched e pn ra a.fileName (mp3Path rid) rid size).2⟩

/-- The attachment loop of the webhook: the first filename ending in
.mp3 (case-insensitively) gets an id and a save attempt; save or stat
failure falls through to the next attachment while keeping the id in
recordingID; a fully processed attachment breaks the loop. -/
def processLoop (env : Nat → AttemptEnv) (pn ra : String) :
    List AttachmentData → Nat → String → LoopResult
  | [], _, rid => ⟨rid, [], [], false⟩
  | a :: rest, k, rid =>
    if isMp3Name a.fileName then
      match saveAttachment a (env k).writeEnv with
      | Except.error _ => processLoop env pn ra rest (k + 1) (generateID (env k).genSource)
      | Except.ok bytes =>
        if (env k).statOk then
          matchedResult (env k) pn ra a (generateID (env k).genSource) bytes.length
        else processLoop env pn ra rest (k + 1) (generateID (env k).genSource)
    else processLoop env pn ra rest k rid

/-- Leftmost replacement of every occurrence of the UTF-8 byte sequence
of U+202F (226, 128, 175) by a single space byte, as
nastyTimeRegex.ReplaceAll(body, " ") acts on the raw request body. -/
def replaceNNBSP : List Nat → List Nat
  | [] => []
  | [b] => [b]
  | [b, c] => [b, c]
  | b :: c :: d :: rest =>
    if b = 226 ∧ c = 128 ∧ d = 175 then 32 :: replaceNNBSP rest
    else b :: replaceNNBSP (c :: d :: rest)

/-- The bytes handed to json.Unmarshal: the whole raw body after the
narrow no-break-space substitution. -/
def webhookParseInput (body : List Nat) : List Nat :=
  replaceNNBSP body

/-- webhookHandler: method gate, body read, byte substitution, JSON
parse, receivedAt defaulting, phone extraction with Unknown fallback,
the attachment loop, and the unconditional 201 success body carrying
the final recordingID. -/
def webhookHandler (method : String) (bodyResult : Except Unit (List Nat))
    (parse : List Nat → Option EmailData) (now : String)
    (env : Nat → AttemptEnv) : WebhookOutput :=
  if method ≠ "POST" then ⟨405, none, [], [], false⟩
  else
    match bodyResult with
    | Except.error _ => ⟨500, none, [], [], false⟩
    | Except.ok body =>
      match parse (webhookParseInput body) with
      | none => ⟨400, none, [], [], false⟩
      | some email0 =>
        let email := if email0.receivedAt = "" then
          { email0 with receivedAt := now } else email0
        let pn0 := extractPhoneNumber email.subject
        let pn := if pn0 = "" then "Unknown" else pn0
        let res := processLoop env pn email.receivedAt email.attachments 0 ""
        ⟨201, some ⟨"success", "Recording data received", res.rid⟩,
         res.submitted, res.inserted, res.titleInvoked⟩

/-- playHandler: trim the route from the URL path; an empty id is 400,
any scan error of the lookup is 404; the explicit file check catches
only a not-exist stat error (404); every other case is handed to
http.ServeFile, whose own error mapping decides the status. -/
def playHandler (urlPath : String) (env : PlayEnv) : Nat :=
  let recordingID := goTrimPre ("/api/play/") urlPath
  if recordingID = "" then 400
  else
    match env.lookup recordingID with
    | Except.error _ => 404
    | Except.ok fp =>
      if env.statRes fp = StatOutcome.notExist then 404
      else serveStatus (env.serveRes fp)

/-- A payload whose only attachment is an mp3 with undecodable base64
content. -/
def cexEmail : EmailData :=
  ⟨"no phone here", "a@b", "2025-01-01", [⟨"voicemail.mp3", "%%%%", "audio/mpeg"⟩]⟩

/-- An effect environment whose id generator draws sixteen zero bytes
and whose filesystem accepts every write. -/
def cexEnv : Nat → AttemptEnv := fun _ =>
  ⟨GenSource.random [0, 0, 0, 0, 0, 0, 0, 0, 0, 0, 0, 0, 0, 0, 0, 0],
   ⟨true, true⟩, true, Except.ok ("hello"), TitleOutcome.sendError, true⟩

/-- A payload whose only attachment is an mp3 with valid base64 content. -/
def okEmail : EmailData :=
  ⟨"no phone here", "a@b", "2025-01-01", [⟨"voicemail.mp3", "aGk=", "audio/mpeg"⟩]⟩

/-- An effect environment for a fully successful ingestion. -/
def okEnv : Nat → AttemptEnv := fun _ =>
  ⟨GenSource.random [0, 0, 0, 0, 0, 0, 0, 0, 0, 0, 0, 0, 0, 0, 0, 0],
   ⟨true, true⟩, true, Except.ok ("hello"),
   TitleOutcome.httpResponse 200 (some [⟨"assistant", "Hi"⟩]), true⟩

/-- The record okEnv and okEmail produce. -/
def okRecord : Recording :=
  ⟨"AAAAAAAAAAAAAAAAAAAAAA==", "Unknown", "2025-01-01", "voicemail.mp3",
   "data/mp3s/AAAAAAAAAAAAAAAAAAAAAA==.mp3", 2, "hello", "Hi"⟩

/-- An effect environment whose transcription step fails. -/
def failEnv : Nat → AttemptEnv := fun _ =>
  ⟨GenSource.random [0, 0, 0, 0, 0, 0, 0, 0, 0, 0, 0, 0, 0, 0, 0, 0],
   ⟨true, true⟩, true, Except.error ("whisper transcription failed: exit 1"),
   TitleOutcome.httpResponse 200 (some [⟨"assistant", "Hi"⟩]), true⟩

/-- The phone number the handler stores: the extraction result, or
Unknown when it is empty. -/
def phoneOf (email : EmailData) : String :=
  if extractPhoneNumber email.subject = "" then "Unknown"
  else extractPhoneNumber email.subject

/-- The receivedAt the handler stores: the payload value, defaulted to
the current time when absent. -/
def raOf (email : EmailData) (now : String) : String :=
  if email.receivedAt = "" then now else email.receivedAt

theorem takeDigits_len : ∀ (n : Nat) (cs g r : _),
    takeDigits n cs = some (g, r) → g.length = n := by
  intro n
  induction n with
  | zero =>
    intro cs g r h
    simp only [takeDigits, Option.some.injEq, Prod.mk.injEq] at h
    simp [← h.1]
  | succ n ih =>
    intro cs g r h
    cases cs with
    | nil => simp [takeDigits] at h
    | cons c cs =>
      unfold takeDigits at h
      split at h
      · split at h
        · rename_i g0 r0 htd
          injection h with h2
          injection h2 with h3 h4
          subst h3
          simp [ih cs g0 r0 htd]
        · simp at h
      · simp at h

theorem firstSome_eq {α : Type} {a b : Option α} {x : α}
    (h : firstSome a b = some x) : a = some x ∨ b = some x := by
  cases a with
  | none => right; simpa [firstSome] using h
  | some y => left; simpa [firstSome] using h

theorem reTail4_len : ∀ cs g, reTail4 cs = some g → g.length = 4 := by
  intro cs g h
  unfold reTail4 at h
  split at h
  · rename_i g0 r0 htd
    injection h with h2
    subst h2
    exact takeDigits_len 4 cs g0 r0 htd
  · simp at h

theorem reSepTail4_len : ∀ cs g, reSepTail4 cs = some g →
    g.length = 4 := by
  intro cs g h
  cases cs with
  | nil =>
    simp only [reSepTail4] at h
    exact reTail4_len _ _ h
  | cons c rest =>
    simp only [reSepTail4] at h
    split at h
    · rcases firstSome_eq h with h2 | h2 <;> exact reTail4_len _ _ h2
    · exact reTail4_len _ _ h
theorem reMid34_len : ∀ cs g2 g3, reMid34 cs = some (g2, g3) →
    g2.length = 3 ∧ g3.length = 4 := by
  intro cs g2 g3 h
  unfold reMid34 at h
  split at h
  · rename_i g0 r0 htd
    split at h
    · rename_i g htag
      injection h with h2
      injection h2 with h3 h4
      subst h3
      subst h4
      exact ⟨takeDigits_len 3 cs g0 r0 htd, reSepTail4_len r0 g htag⟩
    · simp at h
  · simp at h

theorem reSepMid_len : ∀ cs g2 g3, reSepMid cs = some (g2, g3) →
    g2.length = 3 ∧ g3.length = 4 := by
  intro cs g2 g3 h
  cases cs with
  | nil =>
    simp only [reSepMid] at h
    exact reMid34_len _ _ _ h
  | cons c rest =>
    simp only [reSepMid] at h
    split at h
    · rcases firstSome_eq h with h2 | h2 <;> exact reMid34_len _ _ _ h2
    · exact reMid34_len _ _ _ h
theorem reCloseParen_len : ∀ cs g2 g3, reCloseParen cs = some (g2, g3) →
    g2.length = 3 ∧ g3.length = 4 := by
  intro cs g2 g3 h
  cases cs with
  | nil =>
    simp only [reCloseParen] at h
    exact reSepMid_len _ _ _ h
  | cons c rest =>
    simp only [reCloseParen] at h
    split at h
    · rcases firstSome_eq h with h2 | h2 <;> exact reSepMid_len _ _ _ h2
    · exact reSepMid_len _ _ _ h
theorem reCore_len : ∀ cs g1 g2 g3, reCore cs = some (g1, g2, g3) →
    g1.length = 3 ∧ g2.length = 3 ∧ g3.length = 4 := by
  intro cs g1 g2 g3 h
  unfold reCore at h
  split at h
  · rename_i g0 r0 htd
    split at h
    · rename_i ga gb htag
      injection h with h2
      injection h2 with h3 h4
      injection h4 with h5 h6
      subst h3
      subst h5
      subst h6
      have hlen := reCloseParen_len r0 ga gb htag
      exact ⟨takeDigits_len 3 cs g0 r0 htd, hlen.1, hlen.2⟩
    · simp at h
  · simp at h

theorem reOpenParen_len : ∀ cs g1 g2 g3, reOpenParen cs = some (g1, g2, g3) →
    g1.length = 3 ∧ g2.length = 3 ∧ g3.length = 4 := by
  intro cs g1 g2 g3 h
  cases cs with
  | nil =>
    simp only [reOpenParen] at h
    exact reCore_len _ _ _ _ h
  | cons c rest =>
    simp only [reOpenParen] at h
    split at h
    · rcases firstSome_eq h with h2 | h2 <;> exact reCore_len _ _ _ _ h2
    · exact reCore_len _ _ _ _ h
theorem reSpaces_len : ∀ cs g1 g2 g3, reSpaces cs = some (g1, g2, g3) →
    g1.length = 3 ∧ g2.length = 3 ∧ g3.length = 4 := by
  intro cs
  induction cs with
  | nil =>
    intro g1 g2 g3 h
    simp only [reSpaces] at h
    exact reOpenParen_len _ _ _ _ h
  | cons c rest ih =>
    intro g1 g2 g3 h
    simp only [reSpaces] at h
    split at h
    · rcases firstSome_eq h with h2 | h2
      · exact ih _ _ _ h2
      · exact reOpenParen_len _ _ _ _ h2
    · exact reOpenParen_len _ _ _ _ h
theorem reOne_len : ∀ cs g1 g2 g3, reOne cs = some (g1, g2, g3) →
    g1.length = 3 ∧ g2.length = 3 ∧ g3.length = 4 := by
  intro cs g1 g2 g3 h
  cases cs with
  | nil =>
    simp only [reOne] at h
    exact reSpaces_len _ _ _ _ h
  | cons c rest =>
    simp only [reOne] at h
    split at h
    · rcases firstSome_eq h with h2 | h2 <;> exact reSpaces_len _ _ _ _ h2
    · exact reSpaces_len _ _ _ _ h
theorem rePlus_len : ∀ cs g1 g2 g3, rePlus cs = some (g1, g2, g3) →
    g1.length = 3 ∧ g2.length = 3 ∧ g3.length = 4 := by
  intro cs g1 g2 g3 h
  cases cs with
  | nil =>
    simp only [rePlus] at h
    exact reOne_len _ _ _ _ h
  | cons c rest =>
    simp only [rePlus] at h
    split at h
    · rcases firstSome_eq h with h2 | h2 <;> exact reOne_len _ _ _ _ h2
    · exact reOne_len _ _ _ _ h
theorem findPhone_len : ∀ cs g1 g2 g3, findPhone cs = some (g1, g2, g3) →
    g1.length = 3 ∧ g2.length = 3 ∧ g3.length = 4 := by
  intro cs
  induction cs with
  | nil =>
    intro g1 g2 g3 h
    simp only [findPhone] at h
    exact rePlus_len _ _ _ _ h
  | cons c rest ih =>
    intro g1 g2 g3 h
    simp only [findPhone] at h
    rcases firstSome_eq h with h2 | h2
    · exact rePlus_len _ _ _ _ h2
    · exact ih _ _ _ h2

theorem processMatched_phone : ∀ e pn ra fn fp rid size,
    (processMatched e pn ra fn fp rid size).1.phoneNumber = pn := by
  intro e pn ra fn fp rid size
  unfold processMatched
  split
  · rfl
  · split
    · split <;> rfl
    · rfl

theorem processLoop_skip : ∀ (env : Nat → AttemptEnv) (pn ra : String)
    (l rest : List AttachmentData) (k : Nat) (rid : String),
    (∀ a ∈ l, isMp3Name a.fileName = false) →
    processLoop env pn ra (l ++ rest) k rid = processLoop env pn ra rest k rid := by
  intro env pn ra l
  induction l with
  | nil => intro rest k rid _; simp
  | cons a l ih =>
    intro rest k rid h
    have ha : isMp3Name a.fileName = false := h a (by simp)
    have hl : ∀ b ∈ l, isMp3Name b.fileName = false := fun b hb => h b (by simp [hb])
    simp only [List.cons_append, processLoop, ha, Bool.false_eq_true, if_false]
    exact ih rest k rid hl

theorem processLoop_none : ∀ (env : Nat → AttemptEnv) (pn ra : String)
    (l : List AttachmentData) (k : Nat) (rid : String),
    (∀ a ∈ l, isMp3Name a.fileName = false) →
    processLoop env pn ra l k rid = ⟨rid, [], [], false⟩ := by
  intro env pn ra l k rid h
  have h2 := processLoop_skip env pn ra l [] k rid h
  simp only [List.append_nil] at h2
  rw [h2]
  rfl

theorem processLoop_phone : ∀ (env : Nat → AttemptEnv) (pn ra : String)
    (l : List AttachmentData) (k : Nat) (rid : String) (r : Recording),
    r ∈ (processLoop env pn ra l k rid).submitted → r.phoneNumber = pn := by
  intro env pn ra l
  induction l with
  | nil => intro k rid r h; simp [processLoop] at h
  | cons a l ih =>
    intro k rid r h
    simp only [processLoop] at h
    split at h
    · split at h
      · exact ih _ _ _ h
      · split at h
        · simp only [matchedResult, List.mem_singleton] at h
          rw [h]
          exact processMatched_phone _ _ _ _ _ _ _
        · exact ih _ _ _ h
    · exact ih _ _ _ h

theorem webhookHandler_ok : ∀ (body : List Nat) (parse : List Nat → Option EmailData)
    (now : String) (env : Nat → AttemptEnv) (email : EmailData),
    parse (webhookParseInput body) = some email →
    webhookHandler ("POST") (Except.ok body) parse now env =
      ⟨201, some ⟨"success", "Recording data received",
        (processLoop env (phoneOf email) (raOf email now) email.attachments 0 "").rid⟩,
       (processLoop env (phoneOf email) (raOf email now) email.attachments 0 "").submitted,
       (processLoop env (phoneOf email) (raOf email now) email.attachments 0 "").inserted,
       (processLoop env (phoneOf email) (raOf email now) email.attachments 0 "").titleInvoked⟩ := by
  intro body parse now env email hp
  simp only [webhookHandler, hp, ne_eq, not_true, if_false, phoneOf, raOf]
  by_cases hra : email.receivedAt = ""
  · simp only [hra, if_pos rfl, if_true]
  · rw [if_neg hra, if_neg hra]

/-- C4: a well-formed POST payload none of whose attachment filenames
case-insensitively ends in .mp3 yields status 201 with the success body
carrying an empty id, and no record is submitted to or accepted by the
repository. -/
theorem C4_no_audio_attachment : ∀ (body : List Nat)
    (parse : List Nat → Option EmailData) (now : String)
    (env : Nat → AttemptEnv) (email : EmailData),
    parse (webhookParseInput body) = some email →
    (∀ a ∈ email.attachments, isMp3Name a.fileName = false) →
    (webhookHandler ("POST") (Except.ok body) parse now env).status = 201
    ∧ (webhookHandler ("POST") (Except.ok body) parse now env).body =
        some ⟨"success", "Recording data received", ""⟩
    ∧ (webhookHandler ("POST") (Except.ok body) parse now env).submitted = []
    ∧ (webhookHandler ("POST") (Except.ok body) parse now env).inserted = [] := by
  intro body parse now env email hp hna
  rw [webhookHandler_ok body parse now env email hp]
  rw [processLoop_none env _ _ _ _ _ hna]
  exact ⟨rfl, rfl, rfl, rfl⟩

/-- C4 witness: a concrete payload whose only attachment is a .wav. -/
theorem C4_wit :
    (webhookHandler ("POST") (Except.ok [])
      (fun _ => some ⟨"s", "a@b", "2025-01-01", [⟨"x.wav", "AAAA", "audio/wav"⟩]⟩)
      ("now") okEnv).status = 201
    ∧ (webhookHandler ("POST") (Except.ok [])
      (fun _ => some ⟨"s", "a@b", "2025-01-01", [⟨"x.wav", "AAAA", "audio/wav"⟩]⟩)
      ("now") okEnv).body = some ⟨"success", "Recording data received", ""⟩
    ∧ (webhookHandler ("POST") (Except.ok [])
      (fun _ => some ⟨"s", "a@b", "2025-01-01", [⟨"x.wav", "AAAA", "audio/wav"⟩]⟩)
      ("now") okEnv).submitted = []
    ∧ (webhookHandler ("POST") (Except.ok [])
      (fun _ => some ⟨"s", "a@b", "2025-01-01", [⟨"x.wav", "AAAA", "audio/wav"⟩]⟩)
      ("now") okEnv).inserted = [] :=
  C4_no_audio_attachment [] _ ("now") okEnv
    ⟨"s", "a@b", "2025-01-01", [⟨"x.wav", "AAAA", "audio/wav"⟩]⟩ rfl (by decide)

/-- C5: the documented extraction example; any input the phone regex
does not match extracts to the empty string; and an empty extraction
makes every record the handler submits carry the phone number Unknown. -/
theorem C5_phone_extraction :
    extractPhoneNumber ("Call me at (415) 555-1234") = "(415) 555-1234"
    ∧ (∀ s : String, findPhone s.data = none → extractPhoneNumber s = "")
    ∧ (∀ (body : List Nat) (parse : List Nat → Option EmailData) (now : String)
        (env : Nat → AttemptEnv) (email : EmailData) (r : Recording),
        parse (webhookParseInput body) = some email →
        extractPhoneNumber email.subject = "" →
        r ∈ (webhookHandler ("POST") (Except.ok body) parse now env).submitted →
        r.phoneNumber = "Unknown") := by
  refine ⟨by decide, ?_, ?_⟩
  · intro s h
    simp [extractPhoneNumber, h]
  · intro body parse now env email r hp hx hr
    rw [webhookHandler_ok body parse now env email hp] at hr
    have h2 := processLoop_phone env (phoneOf email) (raOf email now)
      email.attachments 0 "" r hr
    unfold phoneOf at h2
    rwa [if_pos hx] at h2

/-- C5 witness: a concrete ingestion whose subject has no phone number
stores the record with phone number Unknown. -/
theorem C5_wit :
    okRecord ∈ (webhookHandler ("POST") (Except.ok [])
      (fun _ => some okEmail) ("now") okEnv).submitted
    ∧ okRecord.phoneNumber = "Unknown" :=
  ⟨by decide,
   C5_phone_extraction.2.2 [] (fun _ => some okEmail) ("now") okEnv okEmail okRecord
     rfl (by decide) (by decide)⟩

/-- C6: on a regex match whose area-code group is 704 and whose final
group ends in 90, the extractor returns the fixed joke string; on every
other match it returns the (AAA) BBB-CCCC format; with two concrete
instances. -/
theorem C6_joke_override :
    (∀ (s : String) (g1 g2 g3 : List Char), findPhone s.data = some (g1, g2, g3) →
      (g1 = ['7', '0', '4'] ∧ g3.drop 2 = ['9', '0'] →
        extractPhoneNumber s = "I HATE THIS MAN")
      ∧ (¬(g1 = ['7', '0', '4'] ∧ g3.drop 2 = ['9', '0']) →
        extractPhoneNumber s = "(" ++ String.mk g1 ++ ") " ++ String.mk g2 ++ "-" ++ String.mk g3))
    ∧ extractPhoneNumber ("704-555-1290") = "I HATE THIS MAN"
    ∧ extractPhoneNumber ("(415) 555-1234") = "(415) 555-1234" := by
  refine ⟨?_, by decide, by decide⟩
  intro s g1 g2 g3 h
  constructor
  · intro hc
    simp [extractPhoneNumber, h, hc]
  · intro hc
    simp only [extractPhoneNumber, h]
    rw [if_neg hc]

/-- C6 witness: the joke case and a plain formatting case. -/
theorem C6_wit :
    extractPhoneNumber ("704-555-1290") = "I HATE THIS MAN"
    ∧ extractPhoneNumber ("7045551234") =
      "(" ++ String.mk ['7', '0', '4'] ++ ") " ++ String.mk ['5', '5', '5'] ++ "-" ++
        String.mk ['1', '2', '3', '4'] :=
  ⟨(C6_joke_override.1 ("704-555-1290") ['7', '0', '4'] ['5', '5', '5']
      ['1', '2', '9', '0'] (by decide)).1 (by decide),
   (C6_joke_override.1 ("7045551234") ['7', '0', '4'] ['5', '5', '5']
      ['1', '2', '3', '4'] (by decide)).2 (by decide)⟩

/-- C8: the extractor is total; on no match it returns the empty string,
and on every match the three capture groups have lengths 3, 3 and 4, so
the slice of the last two characters of group three is always within
bounds. -/
theorem C8_group_lengths : ∀ s : String,
    (findPhone s.data = none → extractPhoneNumber s = "")
    ∧ (∀ g1 g2 g3 : List Char, findPhone s.data = some (g1, g2, g3) →
        g1.length = 3 ∧ g2.length = 3 ∧ g3.length = 4 ∧ (g3.drop 2).length = 2) := by
  intro s
  constructor
  · intro h
    simp [extractPhoneNumber, h]
  · intro g1 g2 g3 h
    obtain ⟨h1, h2, h3⟩ := findPhone_len _ _ _ _ h
    exact ⟨h1, h2, h3, by simp [h3]⟩

/-- C8 witness: the group lengths at a concrete matching input. -/
theorem C8_wit :
    (['4', '1', '5'] : List Char).length = 3 ∧ (['5', '5', '5'] : List Char).length = 3
    ∧ (['1', '2', '3', '4'] : List Char).length = 4
    ∧ ((['1', '2', '3', '4'] : List Char).drop 2).length = 2 :=
  (C8_group_lengths ("(415) 555-1234")).2 ['4', '1', '5'] ['5', '5', '5']
    ['1', '2', '3', '4'] (by decide)

/-- C1 counterexample: a request whose only audio attachment fails to
persist (its content is not valid base64) still gets the success
response, but the id field of that response is the generated id of the
failed attachment, which is not the empty string. -/
theorem C1_cex :
    (webhookHandler ("POST") (Except.ok []) (fun _ => some cexEmail) ("now") cexEnv).status = 201
    ∧ (webhookHandler ("POST") (Except.ok []) (fun _ => some cexEmail) ("now") cexEnv).body =
        some ⟨"success", "Recording data received", "AAAAAAAAAAAAAAAAAAAAAA=="⟩
    ∧ ("AAAAAAAAAAAAAAAAAAAAAA==" : String) ≠ ""
    ∧ saveAttachment ⟨"voicemail.mp3", "%%%%", "audio/mpeg"⟩ ⟨true, true⟩ =
        Except.error SaveError.decodeError :=
  ⟨by decide, by decide, by decide, rfl⟩

/-- C1 amended: when the only audio-extension attachment fails to
persist, the handler still returns the 201 success response and inserts
nothing, but the id field of that response is the id generated for the
failed attachment (recordingID is assigned before the save), not the
empty string. -/
theorem C1_failed_save_id : ∀ (body : List Nat) (parse : List Nat → Option EmailData)
    (now : String) (env : Nat → AttemptEnv) (email : EmailData)
    (l1 : List AttachmentData) (a : AttachmentData) (l2 : List AttachmentData) (e : SaveError),
    parse (webhookParseInput body) = some email →
    email.attachments = l1 ++ a :: l2 →
    (∀ b ∈ l1, isMp3Name b.fileName = false) →
    (∀ b ∈ l2, isMp3Name b.fileName = false) →
    isMp3Name a.fileName = true →
    saveAttachment a (env 0).writeEnv = Except.error e →
    (webhookHandler ("POST") (Except.ok body) parse now env).status = 201
    ∧ (webhookHandler ("POST") (Except.ok body) parse now env).body =
        some ⟨"success", "Recording data received", generateID (env 0).genSource⟩
    ∧ (webhookHandler ("POST") (Except.ok body) parse now env).submitted = []
    ∧ (webhookHandler ("POST") (Except.ok body) parse now env).inserted = [] := by
  intro body parse now env email l1 a l2 e hp hatt h1 h2 ha hsv
  rw [webhookHandler_ok body parse now env email hp, hatt]
  rw [processLoop_skip env _ _ l1 (a :: l2) 0 "" h1]
  simp only [processLoop, ha, if_true, hsv]
  rw [processLoop_none env _ _ l2 1 _ h2]
  simp

/-- C1 witness: the amended statement at the concrete failing payload. -/
theorem C1_wit :
    (webhookHandler ("POST") (Except.ok []) (fun _ => some cexEmail) ("now") cexEnv).status = 201
    ∧ (webhookHandler ("POST") (Except.ok []) (fun _ => some cexEmail) ("now") cexEnv).body =
        some ⟨"success", "Recording data received", generateID (cexEnv 0).genSource⟩
    ∧ (webhookHandler ("POST") (Except.ok []) (fun _ => some cexEmail) ("now") cexEnv).submitted = []
    ∧ (webhookHandler ("POST") (Except.ok []) (fun _ => some cexEmail) ("now") cexEnv).inserted = [] :=
  C1_failed_save_id [] (fun _ => some cexEmail) ("now") cexEnv cexEmail
    [] ⟨"voicemail.mp3", "%%%%", "audio/mpeg"⟩ [] SaveError.decodeError
    rfl rfl (by simp) (by simp) (by decide) rfl

/-- C3: when the transcription invocation of the processed attachment
fails, the record submitted to the repository carries the failure
placeholder (fixed prefix plus the error text) as its transcription and
the default sentinel as its title, and the title generator is never
invoked. -/
theorem C3_transcription_failure : ∀ (body : List Nat) (parse : List Nat → Option EmailData)
    (now : String) (env : Nat → AttemptEnv) (email : EmailData)
    (l1 : List AttachmentData) (a : AttachmentData) (l2 : List AttachmentData)
    (bytes : List Nat) (msg : String),
    parse (webhookParseInput body) = some email →
    email.attachments = l1 ++ a :: l2 →
    (∀ b ∈ l1, isMp3Name b.fileName = false) →
    isMp3Name a.fileName = true →
    saveAttachment a (env 0).writeEnv = Except.ok bytes →
    (env 0).statOk = true →
    (env 0).transcribeResult = Except.error msg →
    ∃ r : Recording,
      (webhookHandler ("POST") (Except.ok body) parse now env).submitted = [r]
      ∧ r.transcription = "Transcription failed: " ++ msg
      ∧ r.title = "Untitled Voicemail"
      ∧ (webhookHandler ("POST") (Except.ok body) parse now env).titleInvoked = false
      ∧ (webhookHandler ("POST") (Except.ok body) parse now env).inserted =
          (if (env 0).insertOk = true then [r] else []) := by
  intro body parse now env email l1 a l2 bytes msg hp hatt h1 ha hsv hstat htr
  rw [webhookHandler_ok body parse now env email hp, hatt]
  rw [processLoop_skip env _ _ l1 (a :: l2) 0 "" h1]
  simp only [processLoop, ha, if_true, hsv, hstat]
  refine ⟨(processMatched (env 0) (phoneOf email) (raOf email now) a.fileName
    (mp3Path (generateID (env 0).genSource)) (generateID (env 0).genSource) bytes.length).1,
    ?_, ?_, ?_, ?_, ?_⟩ <;>
    simp [matchedResult, processMatched, htr]

/-- C3 witness: a concrete ingestion whose transcription step fails. -/
theorem C3_wit :
    ∃ r : Recording,
      (webhookHandler ("POST") (Except.ok []) (fun _ => some okEmail) ("now") failEnv).submitted = [r]
      ∧ r.transcription = "Transcription failed: " ++ "whisper transcription failed: exit 1"
      ∧ r.title = "Untitled Voicemail"
      ∧ (webhookHandler ("POST") (Except.ok []) (fun _ => some okEmail) ("now") failEnv).titleInvoked = false
      ∧ (webhookHandler ("POST") (Except.ok []) (fun _ => some okEmail) ("now") failEnv).inserted =
          (if (failEnv 0).insertOk = true then [r] else []) :=
  C3_transcription_failure [] (fun _ => some okEmail) ("now") failEnv okEmail
    [] ⟨"voicemail.mp3", "aGk=", "audio/mpeg"⟩ [] [104, 105]
    ("whisper transcription failed: exit 1") rfl rfl (by simp) (by decide) rfl rfl rfl

/-- C10 counterexample: with a successful lookup, a stat error that is
not not-exist, and a ServeFile failure that is neither not-exist nor
permission, the play handler returns 500, refuting the never-500 part
of the claim. -/
theorem C10_cex :
    playHandler ("/api/play/abc")
      ⟨fun _ => Except.ok ("data/mp3s/abc.mp3"), fun _ => StatOutcome.otherError,
       fun _ => ServeOutcome.internalErr⟩ = 500 := by
  decide

/-- C10 amended: for a non-empty id, every lookup failure, whether an
absent row or a database error, yields 404; but the handler can return
500: its own branches produce only 400 and 404, and a 500 arises
exactly when the lookup succeeded, the explicit stat guard did not see
a not-exist error, and http.ServeFile mapped an open or stat failure to
Internal. -/
theorem C10_play_lookup : ∀ (urlPath : String) (env : PlayEnv),
    (goTrimPre ("/api/play/") urlPath ≠ "" →
      ∀ e : ScanError, env.lookup (goTrimPre ("/api/play/") urlPath) = Except.error e →
      playHandler urlPath env = 404)
    ∧ (playHandler urlPath env = 500 →
        ∃ fp, env.lookup (goTrimPre ("/api/play/") urlPath) = Except.ok fp
          ∧ env.statRes fp ≠ StatOutcome.notExist
          ∧ env.serveRes fp = ServeOutcome.internalErr) := by
  intro urlPath env
  constructor
  · intro hne e hl
    simp only [playHandler]
    rw [if_neg hne, hl]
  · intro h500
    simp only [playHandler] at h500
    split at h500
    · exact absurd h500 (by decide)
    · split at h500
      · exact absurd h500 (by decide)
      · rename_i fp heq
        split at h500
        · exact absurd h500 (by decide)
        · rename_i hnstat
          refine ⟨fp, heq, hnstat, ?_⟩
          cases hs : env.serveRes fp with
          | served => rw [hs] at h500; exact absurd h500 (by decide)
          | notFoundErr => rw [hs] at h500; exact absurd h500 (by decide)
          | forbiddenErr => rw [hs] at h500; exact absurd h500 (by decide)
          | internalErr => rfl

/-- C10 witness: a database error on a concrete non-empty id returns 404. -/
theorem C10_wit :
    goTrimPre ("/api/play/") ("/api/play/abc") ≠ ""
    ∧ playHandler ("/api/play/abc")
        ⟨fun _ => Except.error ScanError.dbError, fun _ => StatOutcome.okStat,
         fun _ => ServeOutcome.served⟩ = 404 :=
  ⟨by decide,
   (C10_play_lookup ("/api/play/abc")
      ⟨fun _ => Except.error ScanError.dbError, fun _ => StatOutcome.okStat,
       fun _ => ServeOutcome.served⟩).1 (by decide)
     ScanError.dbError rfl⟩

theorem replaceNNBSP_head : ∀ (l : List Nat) (h : Nat) (t : List Nat),
    replaceNNBSP l = h :: t → h = 32 ∨ ∃ t2, l = h :: t2 := by
  intro l h t e
  match l with
  | [] => simp [replaceNNBSP] at e
  | [b] =>
    simp only [replaceNNBSP] at e
    injection e with e1 e2
    exact Or.inr ⟨[], by rw [e1]⟩
  | [b, c] =>
    simp only [replaceNNBSP] at e
    injection e with e1 e2
    exact Or.inr ⟨[c], by rw [e1]⟩
  | b :: c :: d :: rest =>
    simp only [replaceNNBSP] at e
    split at e
    · injection e with e1 e2
      exact Or.inl e1.symm
    · injection e with e1 e2
      exact Or.inr ⟨c :: d :: rest, by rw [e1]⟩

theorem replaceNNBSP_no_pat : ∀ (l l1 l2 : List Nat),
    replaceNNBSP l ≠ l1 ++ 226 :: 128 :: 175 :: l2 := by
  intro l
  induction l using replaceNNBSP.induct with
  | case1 =>
    intro l1 l2 e
    simp [replaceNNBSP] at e
  | case2 b =>
    intro l1 l2 e
    simp only [replaceNNBSP] at e
    have hl := congrArg List.length e
    simp only [List.length_cons, List.length_append, List.length_nil] at hl
    omega
  | case3 b c =>
    intro l1 l2 e
    simp only [replaceNNBSP] at e
    have hl := congrArg List.length e
    simp only [List.length_cons, List.length_append, List.length_nil] at hl
    omega
  | case4 b c d rest hcond ih =>
    intro l1 l2 e
    simp only [replaceNNBSP, if_pos hcond] at e
    cases l1 with
    | nil =>
      injection e with e1 e2
      omega
    | cons x xs =>
      injection e with e1 e2
      exact ih xs l2 e2
  | case5 b c d rest hcond ih =>
    intro l1 l2 e
    simp only [replaceNNBSP, if_neg hcond] at e
    cases l1 with
    | cons x xs =>
      injection e with e1 e2
      exact ih xs l2 e2
    | nil =>
      injection e with e1 e2
      rcases replaceNNBSP_head _ _ _ e2 with h32 | ⟨t2, ht⟩
      · omega
      · injection ht with hc ht2
        subst hc
        cases rest with
        | nil =>
          simp only [replaceNNBSP] at e2
          injection e2 with f1 f2
          injection f2 with f3 f4
          exact hcond ⟨e1, rfl, f3⟩
        | cons x rs =>
          have hne : ¬((128 : Nat) = 226 ∧ d = 128 ∧ x = 175) := by
            intro hco
            exact absurd hco.1 (by norm_num)
          simp only [replaceNNBSP, if_neg hne] at e2
          injection e2 with f1 f2
          rcases replaceNNBSP_head _ _ _ f2 with g32 | ⟨t3, gt⟩
          · omega
          · injection gt with gd gt2
            exact hcond ⟨e1, rfl, gd⟩

/-- C9: the narrow no-break-space substitution runs over the whole raw
body before JSON parsing, so the parse input contains no occurrence of
the U+202F byte sequence, and hence no byte region of it, in particular
the bytes of any payload field, contains one. -/
theorem C9_substitution : ∀ (body fieldBytes : List Nat),
    fieldBytes <:+: webhookParseInput body →
    ¬ ((226 :: 128 :: 175 :: []) <:+: fieldBytes) := by
  intro body fieldBytes hf hpat
  obtain ⟨s, t, hst⟩ := List.IsInfix.trans hpat hf
  exact replaceNNBSP_no_pat body s t (by simpa [webhookParseInput] using hst.symm)

/-- C9 witness: a concrete body whose quoted field region held the
U+202F bytes holds a space after substitution. -/
theorem C9_wit :
    ([32, 34] : List Nat) <:+: webhookParseInput [34, 226, 128, 175, 34]
    ∧ ¬ ((226 :: 128 :: 175 :: ([] : List Nat)) <:+: ([32, 34] : List Nat)) :=
  ⟨⟨[34], [], rfl⟩, C9_substitution [34, 226, 128, 175, 34] [32, 34] ⟨[34], [], rfl⟩⟩

theorem decEnc_std : ∀ n : Nat, n < 64 →
    decB64 b64StdAlphabet (encB64 b64StdAlphabet n) = some n := by decide

theorem encStd_ne_pad : ∀ n : Nat, n < 64 →
    (encB64 b64StdAlphabet n == '=') = false := by decide

theorem encStd_nl_lt : ∀ n : Nat, n < 64 →
    (!(encB64 b64StdAlphabet n == '\n' || encB64 b64StdAlphabet n == '\r')) = true := by decide

theorem encStd_nl : ∀ n : Nat,
    (!(encB64 b64StdAlphabet n == '\n' || encB64 b64StdAlphabet n == '\r')) = true := by
  intro n
  by_cases h : n < 64
  · exact encStd_nl_lt n h
  · have hq : encB64 b64StdAlphabet n = '?' := by
      unfold encB64
      refine List.getD_eq_default _ _ ?_
      have hlen : b64StdAlphabet.length = 64 := rfl
      omega
    rw [hq]
    decide

theorem encodeStd_filter : ∀ bs : List Nat,
    (encodeB64 b64StdAlphabet bs).filter (fun c => !(c == '\n' || c == '\r')) =
      encodeB64 b64StdAlphabet bs := by
  intro bs
  induction bs using encodeB64.induct b64StdAlphabet with
  | case1 => rfl
  | case2 b0 =>
    simp only [encodeB64, List.filter_cons, encStd_nl]
    rfl
  | case3 b0 b1 =>
    simp only [encodeB64, List.filter_cons, encStd_nl]
    rfl
  | case4 b0 b1 b2 rest ih =>
    simp only [encodeB64, List.filter_cons, encStd_nl, if_true, ih]

theorem decode_encode_std : ∀ bs : List Nat, (∀ b ∈ bs, b < 256) →
    decodeB64 (encodeB64 b64StdAlphabet bs) = some bs := by
  intro bs
  unfold decodeB64
  rw [encodeStd_filter bs]
  induction bs using encodeB64.induct b64StdAlphabet with
  | case1 => intro _; rfl
  | case2 b0 =>
    intro h
    have h0 : b0 < 256 := h b0 (by simp)
    have e1 := decEnc_std (b0 / 4) (by omega)
    have e2 := decEnc_std (b0 % 4 * 16) (by omega)
    simp only [encodeB64, decodeChunks, e1, e2]
    simp only [beq_self_eq_true, if_true, List.isEmpty_nil, Bool.and_true, Option.some.injEq]
    have hb : b0 / 4 * 4 + b0 % 4 * 16 / 16 = b0 := by omega
    rw [hb]
  | case3 b0 b1 =>
    intro h
    have h0 : b0 < 256 := h b0 (by simp)
    have h1 : b1 < 256 := h b1 (by simp)
    have e1 := decEnc_std (b0 / 4) (by omega)
    have e2 := decEnc_std (b0 % 4 * 16 + b1 / 16) (by omega)
    have e3 := decEnc_std (b1 % 16 * 4) (by omega)
    have p3 := encStd_ne_pad (b1 % 16 * 4) (by omega)
    simp only [encodeB64, decodeChunks, e1, e2, e3, p3]
    simp only [beq_self_eq_true, if_true, Bool.false_eq_true, if_false,
      List.isEmpty_nil, Option.some.injEq]
    have q1 : b0 / 4 * 4 + (b0 % 4 * 16 + b1 / 16) / 16 = b0 := by omega
    have q2 : (b0 % 4 * 16 + b1 / 16) % 16 * 16 + b1 % 16 * 4 / 4 = b1 := by omega
    rw [q1, q2]
  | case4 b0 b1 b2 rest ih =>
    intro h
    have h0 : b0 < 256 := h b0 (by simp)
    have h1 : b1 < 256 := h b1 (by simp)
    have h2 : b2 < 256 := h b2 (by simp)
    have e1 := decEnc_std (b0 / 4) (by omega)
    have e2 := decEnc_std (b0 % 4 * 16 + b1 / 16) (by omega)
    have e3 := decEnc_std (b1 % 16 * 4 + b2 / 64) (by omega)
    have e4 := decEnc_std (b2 % 64) (by omega)
    have p3 := encStd_ne_pad (b1 % 16 * 4 + b2 / 64) (by omega)
    have p4 := encStd_ne_pad (b2 % 64) (by omega)
    have ihr := ih (fun b hb => h b (by simp [hb]))
    simp only [encodeB64, decodeChunks, e1, e2, e3, e4, p3, p4, Bool.false_eq_true,
      if_false, ihr, Option.some.injEq]
    have q1 : b0 / 4 * 4 + (b0 % 4 * 16 + b1 / 16) / 16 = b0 := by omega
    have q2 : (b0 % 4 * 16 + b1 / 16) % 16 * 16 + (b1 % 16 * 4 + b2 / 64) / 4 = b1 := by omega
    have q3 : (b1 % 16 * 4 + b2 / 64) % 4 * 64 + b2 % 64 = b2 := by omega
    rw [q1, q2, q3]

/-- C7: persisting the base64 encoding of any byte sequence, the empty
one included, stores exactly those bytes (round trip through decode and
write); a decode failure yields the decode error and a create or write
failure yields the corresponding I/O error. -/
theorem C7_save_roundtrip :
    (∀ (bs : List Nat) (fn mt : String) (w : WriteEnv), (∀ b ∈ bs, b < 256) →
      w.createOk = true → w.writeOk = true →
      saveAttachment ⟨fn, String.mk (encodeB64 b64StdAlphabet bs), mt⟩ w = Except.ok bs)
    ∧ (∀ (att : AttachmentData) (w : WriteEnv), decodeB64 att.content.data = none →
        saveAttachment att w = Except.error SaveError.decodeError)
    ∧ (∀ (att : AttachmentData) (w : WriteEnv) (bs : List Nat),
        decodeB64 att.content.data = some bs → w.createOk = false →
        saveAttachment att w = Except.error SaveError.createError)
    ∧ (∀ (att : AttachmentData) (w : WriteEnv) (bs : List Nat),
        decodeB64 att.content.data = some bs → w.createOk = true → w.writeOk = false →
        saveAttachment att w = Except.error SaveError.writeError) := by
  refine ⟨?_, ?_, ?_, ?_⟩
  · intro bs fn mt w hb hc hw
    have hd : decodeB64 (String.mk (encodeB64 b64StdAlphabet bs)).data = some bs :=
      decode_encode_std bs hb
    simp [saveAttachment, hd, hc, hw]
  · intro att w h
    simp [saveAttachment, h]
  · intro att w bs h hc
    simp [saveAttachment, h, hc]
  · intro att w bs h hc hw
    simp [saveAttachment, h, hc, hw]

/-- C7 witness: the round trip at a two-byte sequence and at the empty
sequence, plus a concrete decode failure. -/
theorem C7_wit :
    saveAttachment ⟨"v.mp3", String.mk (encodeB64 b64StdAlphabet [104, 105]), "audio/mpeg"⟩
      ⟨true, true⟩ = Except.ok [104, 105]
    ∧ saveAttachment ⟨"v.mp3", String.mk (encodeB64 b64StdAlphabet []), "audio/mpeg"⟩
      ⟨true, true⟩ = Except.ok [] :=
  ⟨C7_save_roundtrip.1 [104, 105] ("v.mp3") ("audio/mpeg") ⟨true, true⟩ (by decide) rfl rfl,
   C7_save_roundtrip.1 [] ("v.mp3") ("audio/mpeg") ⟨true, true⟩ (by simp) rfl rfl⟩

theorem str_data_append : ∀ a b : String, (a ++ b).data = a.data ++ b.data :=
  fun _ _ => rfl

theorem trimLeftP_cons_neg (p : Char → Bool) (c : Char) (l : List Char) (h : p c = false) :
    trimLeftP p (c :: l) = c :: l := by
  unfold trimLeftP
  rw [List.dropWhile_cons, h]
  simp

theorem trimLeftP_cons_pos (p : Char → Bool) (c : Char) (l : List Char) (h : p c = true) :
    trimLeftP p (c :: l) = trimLeftP p l := by
  unfold trimLeftP
  rw [List.dropWhile_cons, h]
  simp

theorem trimRightP_concat_neg (p : Char → Bool) (l : List Char) (a : Char) (h : p a = false) :
    trimRightP p (l ++ [a]) = l ++ [a] := by
  unfold trimRightP
  rw [List.reverse_append]
  simp only [List.reverse_cons, List.reverse_nil, List.nil_append, List.singleton_append]
  rw [List.dropWhile_cons, h]
  simp

theorem trimRightP_concat_pos (p : Char → Bool) (l : List Char) (a : Char) (h : p a = true) :
    trimRightP p (l ++ [a]) = trimRightP p l := by
  unfold trimRightP
  rw [List.reverse_append]
  simp only [List.reverse_cons, List.reverse_nil, List.nil_append, List.singleton_append]
  rw [List.dropWhile_cons, h]
  simp

theorem cleanTitle_quoted_colon : ∀ (t : String) (l : List Char) (a : Char),
    t.data = l ++ [a] → isQuoteChar a = false →
    cleanTitle ("\":" ++ t ++ "\"") = t := by
  intro t l a hdata ha
  have hne : t ≠ "" := by
    intro h
    rw [h] at hdata
    exact absurd hdata.symm (by simp)
  have hd : ("\":" ++ t ++ "\"").data = '"' :: ':' :: (t.data ++ ['"']) := by
    rw [str_data_append, str_data_append]
    simp
  have hA : goTrim isGoSpace ('"' :: ':' :: (t.data ++ ['"'])) =
      '"' :: ':' :: (t.data ++ ['"']) := by
    unfold goTrim
    rw [trimLeftP_cons_neg _ _ _ (by decide)]
    rw [show '"' :: ':' :: (t.data ++ ['"']) = ('"' :: ':' :: t.data) ++ ['"'] by simp]
    rw [trimRightP_concat_neg _ _ _ (by decide)]
  have hB : goTrim isQuoteChar ('"' :: ':' :: (t.data ++ ['"'])) = ':' :: t.data := by
    unfold goTrim
    rw [trimLeftP_cons_pos _ _ _ (by decide)]
    rw [trimLeftP_cons_neg _ _ _ (by decide)]
    rw [show ':' :: (t.data ++ ['"']) = (':' :: t.data) ++ ['"'] by simp]
    rw [trimRightP_concat_pos _ _ _ (by decide)]
    rw [show (':' :: t.data) = (':' :: l) ++ [a] by simp [hdata]]
    rw [trimRightP_concat_neg _ _ _ ha]
  have e1 : goTrimSpace ("\":" ++ t ++ "\"") = "\":" ++ t ++ "\"" := by
    unfold goTrimSpace
    rw [hd, hA, ← hd]
  have e2 : goTrimQuotes ("\":" ++ t ++ "\"") = String.mk (':' :: t.data) := by
    unfold goTrimQuotes
    rw [hd, hB]
  have e3 : goTrimPre (":") (String.mk (':' :: t.data)) = t := by
    unfold goTrimPre
    rw [if_pos (by simp [strHasPre])]
    rfl
  show (if goTrimPre (":") (goTrimQuotes (goTrimSpace ("\":" ++ t ++ "\""))) = ""
    then "Untitled Voicemail"
    else goTrimPre (":") (goTrimQuotes (goTrimSpace ("\":" ++ t ++ "\"")))) = t
  rw [e1, e2, e3, if_neg hne]

/-- C2 counterexample: a response whose content is a quote-wrapped title
with a leading colon label but whitespace inside the quotes: the
returned title keeps that surrounding whitespace, because TrimSpace
runs before the quotes and the colon are stripped. -/
theorem C2_cex :
    generateTitle (TitleOutcome.httpResponse 200 (some [⟨"assistant", "\": Dentist \""⟩])) =
      (" Dentist ", false)
    ∧ goTrimSpace (" Dentist ") ≠ " Dentist " := by
  decide

/-- C2 amended: for a response whose content is a quote-wrapped,
colon-labelled title, the quotes and the leading colon are removed and
the inner title is returned verbatim (whitespace-trimmed only insofar
as the raw content was trimmed before quote removal, so whitespace
adjacent to the quotes or the colon survives); and every error response
yields the default sentinel title without a crash. -/
theorem C2_title_cleanup :
    (∀ (t : String) (l : List Char) (a : Char),
      t.data = l ++ [a] → isQuoteChar a = false →
      generateTitle (TitleOutcome.httpResponse 200 (some [⟨"assistant", "\":" ++ t ++ "\""⟩])) =
        (t, false))
    ∧ generateTitle TitleOutcome.sendError = ("Untitled Voicemail", true)
    ∧ generateTitle TitleOutcome.readError = ("Untitled Voicemail", true)
    ∧ (∀ (st : Nat) (pr : Option (List Message)), st ≠ 200 →
        generateTitle (TitleOutcome.httpResponse st pr) = ("Untitled Voicemail", true))
    ∧ generateTitle (TitleOutcome.httpResponse 200 none) = ("Untitled Voicemail", true)
    ∧ generateTitle (TitleOutcome.httpResponse 200 (some [])) = ("Untitled Voicemail", true) := by
  refine ⟨?_, rfl, rfl, ?_, by simp [generateTitle], by simp [generateTitle]⟩
  · intro t l a hdata ha
    have hc := cleanTitle_quoted_colon t l a hdata ha
    simp [generateTitle, hc]
  · intro st pr h
    simp [generateTitle, h]

/-- C2 witness: a concrete quote-wrapped colon-labelled title with no
inner whitespace is returned cleaned, and a transport error yields the
sentinel. -/
theorem C2_wit :
    generateTitle (TitleOutcome.httpResponse 200 (some [⟨"assistant", "\":Dentist\""⟩])) =
      ("Dentist", false)
    ∧ generateTitle TitleOutcome.sendError = ("Untitled Voicemail", true) :=
  ⟨C2_title_cleanup.1 ("Dentist") ['D', 'e', 'n', 't', 'i', 's'] 't' rfl rfl,
   C2_title_cleanup.2.1⟩
